import Mathlib

/-!
Verification of the analyze-cache-rename core of receipt-pdf-renamer.

The Go sources are shallowly embedded: pure functions become Lean
functions; filesystem and cache state are passed explicitly as
association lists; machine integers are `Nat`/`Int` with explicit
wrap-around where it matters; fallible Go functions return `Except`.
-/

namespace ReceiptPdfRenamer

/-- File contents: a list of byte values. -/
abbrev Bytes := List Nat

/-! ## SHA-256 (crypto/sha256 + encoding/hex as used by `Cache.hashFile`) -/

/-- Truncate to a 32-bit word. -/
def w32 (n : Nat) : Nat := n % 4294967296

/-- 32-bit rotate right. -/
def rotr32 (n x : Nat) : Nat := w32 ((x >>> n) ||| (x <<< (32 - n)))

def bigSigma0 (x : Nat) : Nat := (rotr32 2 x) ^^^ (rotr32 13 x) ^^^ (rotr32 22 x)

def bigSigma1 (x : Nat) : Nat := (rotr32 6 x) ^^^ (rotr32 11 x) ^^^ (rotr32 25 x)

def smallSigma0 (x : Nat) : Nat := (rotr32 7 x) ^^^ (rotr32 18 x) ^^^ (x >>> 3)

def smallSigma1 (x : Nat) : Nat := (rotr32 17 x) ^^^ (rotr32 19 x) ^^^ (x >>> 10)

def chFn (x y z : Nat) : Nat := (x &&& y) ^^^ ((x ^^^ 4294967295) &&& z)

def majFn (x y z : Nat) : Nat := (x &&& y) ^^^ (x &&& z) ^^^ (y &&& z)

/-- The 64 SHA-256 round constants (FIPS 180-4, in decimal). -/
def sha256K : List Nat :=
  [1116352408, 1899447441, 3049323471, 3921009573, 961987163, 1508970993,
   2453635748, 2870763221, 3624381080, 310598401, 607225278, 1426881987,
   1925078388, 2162078206, 2614888103, 3248222580, 3835390401, 4022224774,
   264347078, 604807628, 770255983, 1249150122, 1555081692, 1996064986,
   2554220882, 2821834349, 2952996808, 3210313671, 3336571891, 3584528711,
   113926993, 338241895, 666307205, 773529912, 1294757372, 1396182291,
   1695183700, 1986661051, 2177026350, 2456956037, 2730485921, 2820302411,
   3259730800, 3345764771, 3516065817, 3600352804, 4094571909, 275423344,
   430227734, 506948616, 659060556, 883997877, 958139571, 1322822218,
   1537002063, 1747873779, 1955562222, 2024104815, 2227730452, 2361852424,
   2428436474, 2756734187, 3204031479, 3329325298]

/-- The SHA-256 initial hash value (in decimal). -/
def sha256H0 : List Nat :=
  [1779033703, 3144134277, 1013904242, 2773480762,
   1359893119, 2600822924, 528734635, 1541459225]

/-- 64-bit big-endian byte encoding. -/
def be64 (n : Nat) : List Nat :=
  [(n >>> 56) % 256, (n >>> 48) % 256, (n >>> 40) % 256, (n >>> 32) % 256,
   (n >>> 24) % 256, (n >>> 16) % 256, (n >>> 8) % 256, n % 256]

/-- SHA-256 message padding: 0x80, zeros to 56 mod 64, then the bit length. -/
def sha256pad (msg : Bytes) : Bytes :=
  msg ++ [0x80] ++ List.replicate ((119 - (msg.length % 64)) % 64) 0 ++ be64 (msg.length * 8)

/-- Split into 64-byte blocks (the input length is a multiple of 64). -/
def chunks64 : Bytes → List Bytes
  | [] => []
  | b :: rest => ((b :: rest).take 64) :: chunks64 ((b :: rest).drop 64)
termination_by l => l.length
decreasing_by
  simp only [List.length_drop, List.length_cons]
  omega

/-- Combine bytes into 32-bit big-endian words. -/
def toWords : Bytes → List Nat
  | b0 :: b1 :: b2 :: b3 :: rest => (((b0 * 256 + b1) * 256 + b2) * 256 + b3) :: toWords rest
  | _ => []

/-- Extend the 16 message words to the 64-entry message schedule. -/
def schedule (ws : List Nat) : List Nat :=
  (List.range 48).foldl
    (fun acc _ =>
      acc ++ [w32 (smallSigma1 (acc.getD (acc.length - 2) 0) + acc.getD (acc.length - 7) 0 +
                   smallSigma0 (acc.getD (acc.length - 15) 0) + acc.getD (acc.length - 16) 0)])
    ws

/-- One SHA-256 round on the 8-word state. -/
def compressStep (st : List Nat) (kw : Nat × Nat) : List Nat :=
  match st with
  | [a, b, c, d, e, f, g, h] =>
    let t1 := w32 (h + bigSigma1 e + chFn e f g + kw.1 + kw.2)
    let t2 := w32 (bigSigma0 a + majFn a b c)
    [w32 (t1 + t2), a, b, c, w32 (d + t1), e, f, g]
  | _ => st

/-- Process one 64-byte block. -/
def processBlock (h : List Nat) (block : Bytes) : List Nat :=
  let st := ((sha256K.zip (schedule (toWords block))).foldl compressStep h)
  (h.zip st).map (fun p => w32 (p.1 + p.2))

/-- SHA-256 digest as 32 bytes. -/
def sha256bytes (msg : Bytes) : Bytes :=
  ((chunks64 (sha256pad msg)).foldl processBlock sha256H0).foldr
    (fun w acc => (w >>> 24) % 256 :: (w >>> 16) % 256 :: (w >>> 8) % 256 :: w % 256 :: acc) []

/-- Lowercase hexadecimal digit. -/
def hexDigit (n : Nat) : Char := if n < 10 then Char.ofNat (48 + n) else Char.ofNat (87 + n)

/-- `hex.EncodeToString(sha256.Sum256(data))`: the content hash used as cache key. -/
def sha256hex (msg : Bytes) : String :=
  String.mk ((sha256bytes msg).foldr (fun b acc => hexDigit (b / 16) :: hexDigit (b % 16) :: acc) [])

/-! ## Association-list stores (filesystem contents and the cache directory) -/

/-- First-match lookup in an association list. -/
def alookup {β : Type} : List (String × β) → String → Option β
  | [], _ => none
  | p :: rest, k => if p.1 = k then some p.2 else alookup rest k

/-- Remove every binding of a key. -/
def aerase {β : Type} : List (String × β) → String → List (String × β)
  | [], _ => []
  | p :: rest, k => if p.1 = k then aerase rest k else p :: aerase rest k

/-- Write/overwrite the binding of a key. -/
def ainsert {β : Type} (l : List (String × β)) (k : String) (v : β) : List (String × β) :=
  (k, v) :: aerase l k

/-- The filesystem visible to the program: path → file bytes. -/
abbrev FS := List (String × Bytes)

/-! ## `sanitizeFilename` (internal/renamer/renamer.go) -/

/-- The pairs handed to `strings.NewReplacer` in `sanitizeFilename`;
every pattern is a single character. -/
def sanitizePairs : List (Char × String) :=
  [('/', "-"), ('\\', "-"), (':', "-"), ('*', ""), ('?', ""), ('"', ""),
   ('<', ""), ('>', ""), ('|', ""), (' ', "-")]

/-- `strings.Replacer.Replace` for single-character patterns: at each
position the first matching pattern is applied, otherwise the character
is copied. -/
def goReplace (pairs : List (Char × String)) : List Char → List Char
  | [] => []
  | c :: rest =>
    match pairs.find? (fun p => p.1 = c) with
    | some p => p.2.toList ++ goReplace pairs rest
    | none => c :: goReplace pairs rest

/-- `strings.Trim(s, "-")`: drop leading and trailing hyphens. -/
def trimChar (c : Char) (s : List Char) : List Char :=
  ((s.dropWhile (fun x => x = c)).reverse.dropWhile (fun x => x = c)).reverse

/-- `strings.Contains(s, "--")`. -/
def containsDD : List Char → Bool
  | [] => false
  | [_] => false
  | c :: d :: rest => if c = '-' ∧ d = '-' then true else containsDD (d :: rest)

/-- `strings.ReplaceAll(s, "--", "-")`: leftmost, non-overlapping. -/
def replaceDD : List Char → List Char
  | [] => []
  | [c] => [c]
  | c :: d :: rest => if c = '-' ∧ d = '-' then '-' :: replaceDD rest else c :: replaceDD (d :: rest)

theorem replaceDD_length_le (l : List Char) : (replaceDD l).length ≤ l.length := by
  induction l using replaceDD.induct with
  | case1 => simp [replaceDD]
  | case2 c => simp [replaceDD]
  | case3 c d rest h ih => simp [replaceDD, h]; omega
  | case4 c d rest h ih =>
    simp only [List.length_cons] at ih
    simp only [replaceDD, if_neg h, List.length_cons]
    omega

theorem replaceDD_length_lt (l : List Char) (h : containsDD l = true) :
    (replaceDD l).length < l.length := by
  induction l using replaceDD.induct with
  | case1 => simp [containsDD] at h
  | case2 c => simp [containsDD] at h
  | case3 c d rest hdd ih =>
    have := replaceDD_length_le rest
    simp [replaceDD, hdd]
    omega
  | case4 c d rest hdd ih =>
    have hrest : containsDD (d :: rest) = true := by
      simpa [containsDD, if_neg hdd] using h
    have := ih hrest
    simp only [List.length_cons] at this
    simp only [replaceDD, if_neg hdd, List.length_cons]
    omega

/-- The body of the `for strings.Contains(result, "--")` loop of
`sanitizeFilename`, driven by fuel; every iteration shortens the list,
so fuel equal to the length always reaches the loop's fixpoint. -/
def collapseFuel : Nat → List Char → List Char
  | 0, s => s
  | n + 1, s => if containsDD s then collapseFuel n (replaceDD s) else s

/-- The `for strings.Contains(result, "--")` loop of `sanitizeFilename`. -/
def collapseHyphens (s : List Char) : List Char :=
  collapseFuel s.length s

/-- Sufficient fuel reaches the loop exit condition. -/
theorem containsDD_collapseFuel (n : Nat) (s : List Char) (h : s.length ≤ n) :
    containsDD (collapseFuel n s) = false := by
  induction n generalizing s with
  | zero =>
    have : s = [] := List.length_eq_zero.mp (Nat.le_zero.mp h)
    subst this
    rfl
  | succ m ih =>
    by_cases hdd : containsDD s
    · have hlt := replaceDD_length_lt s hdd
      simp only [collapseFuel, hdd, if_true]
      exact ih (replaceDD s) (by omega)
    · simp only [collapseFuel, hdd, if_false]
      exact Bool.not_eq_true _ |>.mp hdd

/-- The loop leaves no `--` in its result. -/
theorem containsDD_collapseHyphens (s : List Char) :
    containsDD (collapseHyphens s) = false :=
  containsDD_collapseFuel s.length s (Nat.le_refl _)

/-- `sanitizeFilename` from internal/renamer/renamer.go: replacer, then
trim hyphens, then collapse repeated hyphens. -/
def sanitizeFilename (s : String) : String :=
  String.mk (collapseHyphens (trimChar '-' (goReplace sanitizePairs s.toList)))

/-! ## path/filepath helpers (Unix separators, cleaned paths) -/

/-- `filepath.Base`: strip trailing separators, keep the last element. -/
def basename (p : String) : String :=
  if p = "" then "." else
    let l := (p.toList.reverse.dropWhile (fun x => x = '/')).reverse
    if l = [] then "/" else String.mk ((l.reverse.takeWhile (fun x => x ≠ '/')).reverse)

/-- `filepath.Ext`: the suffix starting at the final dot of the final
element; empty when there is no dot. -/
def extname (name : String) : String :=
  let r := name.toList.reverse
  let pre := r.takeWhile (fun c => ¬ (c = '/' ∨ c = '.'))
  match r.drop pre.length with
  | '.' :: _ => String.mk ('.' :: pre.reverse)
  | _ => ""

/-- `strings.TrimSuffix`. -/
def trimSuffix (s suffix : String) : String :=
  if suffix.toList <:+ s.toList then
    String.mk (s.toList.take (s.toList.length - suffix.toList.length))
  else s

/-- `filepath.Dir` on cleaned paths: everything before the last element. -/
def dirname (p : String) : String :=
  let l1 := p.toList.reverse.dropWhile (fun x => x = '/')
  let l2 := l1.dropWhile (fun x => x ≠ '/')
  let l3 := l2.dropWhile (fun x => x = '/')
  if l3 = [] then (if l2 = [] then "." else "/") else String.mk l3.reverse

/-- `filepath.Join(dir, name)` on cleaned paths. -/
def joinPath (dir name : String) : String :=
  if dir = "" then name
  else if dir = "." then name
  else if dir.toList.getLast? = some '/' then dir ++ name
  else dir ++ "/" ++ name

/-! ## text/template, restricted to the shapes this program uses -/

/-- A parsed template: literal text and `.Field` actions. -/
inductive Seg
  | lit : String → Seg
  | field : String → Seg
deriving DecidableEq, Repr

/-- Literal text up to the next `\x7b\x7b` opener. -/
def takeLit : List Char → List Char × List Char
  | [] => ([], [])
  | c :: rest =>
    if c = '\x7b' ∧ rest.head? = some '\x7b' then (([], c :: rest) : List Char × List Char)
    else
      let p := takeLit rest
      (c :: p.1, p.2)

/-- Action body up to the closing `\x7d\x7d`; `none` when the action is
never closed (Go: "unclosed action" parse error). -/
def takeAction : List Char → Option (List Char × List Char)
  | [] => none
  | c :: rest =>
    if c = '\x7d' ∧ rest.head? = some '\x7d' then some ([], rest.drop 1)
    else (takeAction rest).map (fun p => (c :: p.1, p.2))

def isIdentChar (c : Char) : Bool := c.isAlphanum || c = '_'

/-- An action body must be a `.Field` reference (possibly spaced). -/
def parseField (content : List Char) : Option String :=
  let t := (content.dropWhile (fun x => x = ' ')).reverse.dropWhile (fun x => x = ' ') |>.reverse
  match t with
  | '.' :: name => if name.all isIdentChar then some (String.mk name) else none
  | _ => none

/-- Fuel-driven template scanner; fuel exceeding the input length never
runs out. -/
def parseSegsFuel : Nat → List Char → Option (List Seg)
  | 0, _ => none
  | fuel + 1, s =>
    let p := takeLit s
    let litSegs : List Seg := if p.1 = [] then [] else [Seg.lit (String.mk p.1)]
    match p.2 with
    | [] => some litSegs
    | _ :: rest1 =>
      match takeAction (rest1.drop 1) with
      | none => none
      | some q =>
        match parseField q.1 with
        | none => none
        | some f => (parseSegsFuel fuel q.2).map (fun segs => litSegs ++ Seg.field f :: segs)

/-- `template.New("filename").Parse`: `none` is a parse error. -/
def parseTemplate (s : String) : Option (List Seg) :=
  parseSegsFuel (s.toList.length + 1) s.toList

/-- The data substituted into the template (renamer.TemplateData). -/
structure TemplateData where
  Date : String
  Service : String
  OriginalName : String
deriving DecidableEq

/-- Evaluate one segment; unknown fields fail at execution time. -/
def execSeg (d : TemplateData) : Seg → Except String String
  | .lit s => .ok s
  | .field f =>
    if f = "Date" then .ok d.Date
    else if f = "Service" then .ok d.Service
    else if f = "OriginalName" then .ok d.OriginalName
    else .error ("can't evaluate field " ++ f)

/-- `Template.Execute` into a buffer. -/
def executeTemplate (segs : List Seg) (d : TemplateData) : Except String String :=
  segs.foldlM (fun acc seg => (execSeg d seg).map (fun s => acc ++ s)) ""

/-! ## internal/ai: the analyzer result record -/

/-- ai.ReceiptInfo. -/
structure ReceiptInfo where
  Date : String
  Service : String
deriving DecidableEq, Repr

/-! ## internal/config -/

/-- config.AIConfig (the fields the core uses). -/
structure AIConfig where
  provider : String := ""
  model : String := ""
  maxWorkers : Int := 0
deriving DecidableEq

/-- config.CacheConfig. -/
structure CacheConfig where
  enabled : Bool
  ttl : Int
deriving DecidableEq

/-- config.FormatConfig. -/
structure FormatConfig where
  Template : String
  DateFormat : String
  ServicePattern : String := ""
deriving DecidableEq

/-- config.Config. -/
structure Config where
  ai : AIConfig
  cache : CacheConfig
  format : FormatConfig
deriving DecidableEq

/-- config.DefaultConfig. -/
def DefaultConfig : Config :=
  { ai := { maxWorkers := 3 },
    cache := { enabled := true, ttl := 0 },
    format := { Template := "\x7b\x7b.Date\x7d\x7d-\x7b\x7b.Service\x7d\x7d-\x7b\x7b.OriginalName\x7d\x7d",
                DateFormat := "20060102",
                ServicePattern := "" } }

/-- config.BuildFullTemplate: fixed prefix/suffix around the fragment. -/
def BuildFullTemplate (servicePattern : String) : String :=
  "\x7b\x7b.Date\x7d\x7d-" ++ servicePattern ++ "-\x7b\x7b.OriginalName\x7d\x7d"

/-- The `--workers` flag handling in cmd run():
`if workers > 0 \x7b cfg.AI.MaxWorkers = workers \x7d`. -/
def applyWorkersFlag (cfgWorkers workers : Int) : Int :=
  if workers > 0 then workers else cfgWorkers

/-! ## internal/renamer -/

/-- renamer.Renamer: the active parsed template plus the date format. -/
structure Renamer where
  template : List Seg
  dateFormat : String
deriving DecidableEq

/-- renamer.New: parse the configured template. -/
def Renamer.New (cfg : FormatConfig) : Except String Renamer :=
  match parseTemplate cfg.Template with
  | none => .error "failed to parse template"
  | some t => .ok { template := t, dateFormat := cfg.DateFormat }

/-- renamer.UpdateTemplate: parse, and only on success replace the
active template. The returned `Renamer` is the post-call state. -/
def Renamer.UpdateTemplate (r : Renamer) (templateStr : String) :
    Except String Unit × Renamer :=
  match parseTemplate templateStr with
  | none => (.error "failed to parse template", r)
  | some t => (.ok (), { r with template := t })

/-- renamer.GenerateName: strip the extension, sanitize the service,
execute the template, re-append the extension. -/
def Renamer.GenerateName (r : Renamer) (originalPath : String) (info : ReceiptInfo) :
    Except String String :=
  let originalName := basename originalPath
  let ext := extname originalName
  let nameWithoutExt := trimSuffix originalName ext
  let serviceName := sanitizeFilename info.Service
  (executeTemplate r.template
    { Date := info.Date, Service := serviceName, OriginalName := nameWithoutExt }).map
    (fun s => s ++ ext)

/-- renamer.Rename over the explicit filesystem: destination-existence
check (os.Stat), then os.Rename. The returned `FS` is the post-call
filesystem; on error nothing has been mutated. -/
def Renamer.Rename (fs : FS) (oldPath newName : String) : Except String Unit × FS :=
  let dir := dirname oldPath
  let newPath := joinPath dir newName
  if (alookup fs newPath).isSome then
    (.error ("destination file already exists: " ++ newPath), fs)
  else
    match alookup fs oldPath with
    | none => (.error "failed to rename file", fs)
    | some content => (.ok (), ainsert (aerase fs oldPath) newPath content)

/-! ## internal/cache -/

/-- cache.CacheEntry; `analyzedAt` is Unix seconds. -/
structure CacheEntry where
  hash : String
  analyzedAt : Nat
  result : ReceiptInfo
deriving DecidableEq

/-- The persisted cache directory: hash key → entry file. -/
abbrev Store := List (String × CacheEntry)

/-- cache.Cache (the directory path is abstracted into `Store`). -/
structure Cache where
  enabled : Bool
  ttl : Int
deriving DecidableEq

/-- cache.hashFile: read the file and hash its bytes. -/
def Cache.hashFile (fs : FS) (path : String) : Except String String :=
  match alookup fs path with
  | none => .error "failed to read file for hashing"
  | some data => .ok (sha256hex data)

/-- One day of Unix seconds (time.AddDate(0,0,ttl) on uniform days). -/
def secondsPerDay : Int := 86400

/-- cache.Get: disabled → miss; hash the file; read the entry; with a
positive TTL delete and miss when `now` is after expiry. Returns
((result, found), post-call store). -/
def Cache.Get (c : Cache) (fs : FS) (store : Store) (pdfPath : String) (now : Nat) :
    (Option ReceiptInfo × Bool) × Store :=
  if ¬ c.enabled then ((none, false), store)
  else
    match Cache.hashFile fs pdfPath with
    | .error _ => ((none, false), store)
    | .ok hash =>
      match alookup store hash with
      | none => ((none, false), store)
      | some entry =>
        if c.ttl > 0 ∧ (now : Int) > (entry.analyzedAt : Int) + c.ttl * secondsPerDay then
          ((none, false), aerase store hash)
        else ((some entry.result, true), store)

/-- cache.Set: disabled → no-op success; hash the file; write the entry
under the hash with the current timestamp. -/
def Cache.Set (c : Cache) (fs : FS) (store : Store) (pdfPath : String)
    (info : ReceiptInfo) (now : Nat) : Except String Unit × Store :=
  if ¬ c.enabled then (.ok (), store)
  else
    match Cache.hashFile fs pdfPath with
    | .error e => (.error e, store)
    | .ok hash => (.ok (), ainsert store hash { hash := hash, analyzedAt := now, result := info })

/-! ## internal/tui: item states and the rename pass -/

/-- tui.ItemStatus. -/
inductive ItemStatus
  | pending
  | analyzing
  | ready
  | cached
  | renamed
  | error
  | skipped
deriving DecidableEq, Repr

/-- tui.FileItem (the fields the rename pass reads and writes). -/
structure FileItem where
  originalPath : String
  originalName : String
  newName : String
  status : ItemStatus
deriving DecidableEq, Repr

/-- The loop body of Model.renameCmd: for each selected Ready/Cached
item call Renamer.Rename; an error marks the item Error and counts a
failure, success marks it Renamed. Returns (items, fs, renamed, failed). -/
def renameItems (selected : Nat → Bool) :
    Nat → List FileItem → FS → List FileItem × FS × Nat × Nat
  | _, [], fs => ([], fs, 0, 0)
  | i, item :: rest, fs =>
    if selected i ∧ (item.status = .ready ∨ item.status = .cached) then
      match Renamer.Rename fs item.originalPath item.newName with
      | (.error _, fs1) =>
        let r := renameItems selected (i + 1) rest fs1
        ({ item with status := .error } :: r.1, r.2.1, r.2.2.1, r.2.2.2 + 1)
      | (.ok _, fs1) =>
        let r := renameItems selected (i + 1) rest fs1
        ({ item with status := .renamed } :: r.1, r.2.1, r.2.2.1 + 1, r.2.2.2)
    else
      let r := renameItems selected (i + 1) rest fs
      (item :: r.1, r.2.1, r.2.2.1, r.2.2.2)

/-- Model.renameCmd / its loop, started at index 0. -/
def renameCmd (selected : Nat → Bool) (files : List FileItem) (fs : FS) :
    List FileItem × FS × Nat × Nat :=
  renameItems selected 0 files fs

/-! ## The bounded worker pool (HeadlessRunner.Run / Model.analyzeFiles)

`sem := make(chan struct \x7b\x7d, maxWorkers)` is a counting semaphore:
a task sends before its cache-lookup/analyze work and receives after.
A send is only possible while fewer than `cap` slots are held. -/

/-- Where one dispatched task stands. -/
inductive TaskPhase
  | pending
  | running
  | done
deriving DecidableEq, Repr

/-- The pool: semaphore capacity plus the per-task phases. -/
structure PoolState where
  cap : Nat
  tasks : List TaskPhase
deriving DecidableEq, Repr

/-- How many of the given tasks are in the running phase. -/
def countRunning : List TaskPhase → Nat
  | [] => 0
  | t :: rest => (if t = .running then 1 else 0) + countRunning rest

/-- Tasks currently inside the semaphore-guarded region (cache lookup
plus analyzer call). -/
def inFlight (s : PoolState) : Nat := countRunning s.tasks

/-- Interleaving semantics of the pool: a pending task may enter the
guarded region only while fewer than `cap` tasks are inside; a running
task may finish at any time. -/
inductive PoolStep : PoolState → PoolState → Prop
  | acquire (s : PoolState) (i : Nat) :
      s.tasks.get? i = some .pending →
      inFlight s < s.cap →
      PoolStep s ⟨s.cap, s.tasks.set i .running⟩
  | release (s : PoolState) (i : Nat) :
      s.tasks.get? i = some .running →
      PoolStep s ⟨s.cap, s.tasks.set i .done⟩

/-- Reachability under pool steps. -/
def poolReach : PoolState → PoolState → Prop := Relation.ReflTransGen PoolStep

/-- The pool as created by HeadlessRunner.Run / Model.analyzeFiles:
`make(chan struct \x7b\x7d, maxWorkers)` and one task per file. -/
def initPool (maxWorkers numTasks : Nat) : PoolState :=
  ⟨maxWorkers, List.replicate numTasks .pending⟩

/-! ## Store lemmas -/

theorem alookup_ainsert_self {β : Type} (l : List (String × β)) (k : String) (v : β) :
    alookup (ainsert l k v) k = some v := by
  simp [alookup, ainsert]

theorem alookup_aerase_ne {β : Type} (l : List (String × β)) (k k' : String) (h : k' ≠ k) :
    alookup (aerase l k) k' = alookup l k' := by
  induction l with
  | nil => rfl
  | cons p rest ih =>
    by_cases hp : p.1 = k
    · have hne : ¬ p.1 = k' := by rw [hp]; exact fun hh => h hh.symm
      simp [aerase, alookup, hp, hne, ih, Ne.symm h]
    · by_cases hk' : p.1 = k'
      · simp [aerase, alookup, hp, hk', h]
      · simp [aerase, alookup, hp, hk', ih, h]

theorem alookup_ainsert_ne {β : Type} (l : List (String × β)) (k k' : String) (v : β)
    (h : k' ≠ k) : alookup (ainsert l k v) k' = alookup l k' := by
  have hk : ¬ (k = k') := fun hh => h hh.symm
  simp [ainsert, alookup, hk, alookup_aerase_ne l k k' h]

/-- The FormatConfig of the standard-template tests: DefaultConfig's
template string and date format. -/
def stdFormatConfig : FormatConfig :=
  { Template := "\x7b\x7b.Date\x7d\x7d-\x7b\x7b.Service\x7d\x7d-\x7b\x7b.OriginalName\x7d\x7d",
    DateFormat := "20060102",
    ServicePattern := "" }

/-- The parse of the standard template. -/
def stdSegs : List Seg :=
  [Seg.field "Date", Seg.lit "-", Seg.field "Service", Seg.lit "-", Seg.field "OriginalName"]

/-!  ## Claims about the cache -/

/-- Claim C10: on a cache constructed with enabled=false, every Get
returns (nil, found=false) independently of the filesystem (no read, no
hash), and every Set succeeds while leaving the persisted store
untouched. -/
theorem claim_C10 (c : Cache) (h : c.enabled = false) (fs : FS) (store : Store)
    (path : String) (now : Nat) (info : ReceiptInfo) :
    Cache.Get c fs store path now = ((none, false), store) ∧
    Cache.Set c fs store path info now = (.ok (), store) := by
  constructor <;> simp [Cache.Get, Cache.Set, h]

/-- Claim C10 witness at a concrete disabled cache. -/
theorem claim_C10_witness :
    Cache.Get ⟨false, 0⟩ [("a.pdf", [1, 2])] [] "a.pdf" 5 = ((none, false), []) ∧
    Cache.Set ⟨false, 0⟩ [("a.pdf", [1, 2])] [] "a.pdf" ⟨"20250115", "X"⟩ 5 = (.ok (), []) :=
  claim_C10 ⟨false, 0⟩ rfl [("a.pdf", [1, 2])] [] "a.pdf" 5 ⟨"20250115", "X"⟩

/-- Claim C3: the cache is content-addressed. A Set via one path stores
the entry under the SHA-256 hex digest of the file bytes alone, and a
Get via any other path whose file holds the same bytes finds it, with
the stored date/service. -/
theorem claim_C3 (c : Cache) (fs : FS) (store : Store) (p1 p2 : String) (bs : Bytes)
    (info : ReceiptInfo) (now : Nat) (he : c.enabled = true)
    (h1 : alookup fs p1 = some bs) (h2 : alookup fs p2 = some bs) :
    Cache.Set c fs store p1 info now =
      (.ok (), ainsert store (sha256hex bs) ⟨sha256hex bs, now, info⟩) ∧
    Cache.Get c fs (ainsert store (sha256hex bs) ⟨sha256hex bs, now, info⟩) p2 now =
      ((some info, true), ainsert store (sha256hex bs) ⟨sha256hex bs, now, info⟩) := by
  constructor
  · simp [Cache.Set, Cache.hashFile, he, h1]
  · have hnot : ¬ (c.ttl > 0 ∧ (now : Int) > (now : Int) + c.ttl * secondsPerDay) := by
      rintro ⟨ht, hgt⟩
      have hpos : (0 : Int) ≤ c.ttl * secondsPerDay :=
        mul_nonneg (le_of_lt ht) (by norm_num [secondsPerDay])
      omega
    simp only [Cache.Get, Cache.hashFile, he, h2, alookup_ainsert_self, not_true,
      if_false, ite_false]
    rw [if_neg hnot]

/-- Claim C3 witness: two distinct paths holding the same two bytes. -/
theorem claim_C3_witness :
    Cache.Set ⟨true, 0⟩ [("/a/x.pdf", [7, 9]), ("/b/y.pdf", [7, 9])] [] "/a/x.pdf"
        ⟨"20250115", "Cursor"⟩ 100 =
      (.ok (), ainsert [] (sha256hex [7, 9]) ⟨sha256hex [7, 9], 100, ⟨"20250115", "Cursor"⟩⟩) ∧
    Cache.Get ⟨true, 0⟩ [("/a/x.pdf", [7, 9]), ("/b/y.pdf", [7, 9])]
        (ainsert [] (sha256hex [7, 9]) ⟨sha256hex [7, 9], 100, ⟨"20250115", "Cursor"⟩⟩)
        "/b/y.pdf" 100 =
      ((some ⟨"20250115", "Cursor"⟩, true),
        ainsert [] (sha256hex [7, 9]) ⟨sha256hex [7, 9], 100, ⟨"20250115", "Cursor"⟩⟩) :=
  claim_C3 ⟨true, 0⟩ [("/a/x.pdf", [7, 9]), ("/b/y.pdf", [7, 9])] [] "/a/x.pdf" "/b/y.pdf"
    [7, 9] ⟨"20250115", "Cursor"⟩ 100 rfl (by simp [alookup, List.find?]) (by simp [alookup, List.find?])

/-- Claim C4: with a positive TTL, a Get whose `now` lies more than
ttl days after the entry's `analyzedAt` misses and deletes the entry;
with TTL = 0 any entry is found regardless of age; and a Set never
deletes other entries (expiry happens only at read time). -/
theorem claim_C4 (c : Cache) (fs : FS) (store : Store) (path : String) (bs : Bytes)
    (entry : CacheEntry) (now : Nat) (he : c.enabled = true)
    (hf : alookup fs path = some bs)
    (hs : alookup store (sha256hex bs) = some entry) :
    (c.ttl > 0 → (now : Int) > (entry.analyzedAt : Int) + c.ttl * secondsPerDay →
       Cache.Get c fs store path now = ((none, false), aerase store (sha256hex bs))) ∧
    (c.ttl = 0 →
       Cache.Get c fs store path now = ((some entry.result, true), store)) ∧
    (∀ info k, k ≠ sha256hex bs →
       alookup (Cache.Set c fs store path info now).2 k = alookup store k) := by
  refine ⟨fun ht hgt => ?_, fun ht => ?_, fun info k hk => ?_⟩
  · simp [Cache.Get, Cache.hashFile, he, hf, hs, ht, hgt]
  · simp [Cache.Get, Cache.hashFile, he, hf, hs, ht]
  · simp only [Cache.Set, Cache.hashFile, he, hf]
    simpa using alookup_ainsert_ne store (sha256hex bs) k _ hk

/-- Claim C4 witness: ttl = 1 day, entry analyzed at time 0, read two
days later: the entry is reported missing and erased from the store. -/
theorem claim_C4_witness :
    Cache.Get ⟨true, 1⟩ [("/d/x.pdf", [3])]
        [(sha256hex [3], ⟨"h", 0, ⟨"20230101", "S"⟩⟩)] "/d/x.pdf" 172800 =
      ((none, false), aerase [(sha256hex [3], ⟨"h", 0, ⟨"20230101", "S"⟩⟩)] (sha256hex [3])) :=
  (claim_C4 ⟨true, 1⟩ [("/d/x.pdf", [3])] [(sha256hex [3], ⟨"h", 0, ⟨"20230101", "S"⟩⟩)]
    "/d/x.pdf" [3] ⟨"h", 0, ⟨"20230101", "S"⟩⟩ 172800 rfl (by simp [alookup])
    (by simp [alookup])).1 (by norm_num) (by norm_num [secondsPerDay])

/-!  ## Claims about the safe rename -/

/-- Claim C6: when a file with the computed name already exists in the
same directory, Rename fails with the collision error and performs no
filesystem mutation: the source is still present under its original
name and the existing destination file is unchanged. -/
theorem claim_C6 (fs : FS) (oldPath newName : String) (src dst : Bytes)
    (hsrc : alookup fs oldPath = some src)
    (hdst : alookup fs (joinPath (dirname oldPath) newName) = some dst) :
    (Renamer.Rename fs oldPath newName).1 =
      .error ("destination file already exists: " ++ joinPath (dirname oldPath) newName) ∧
    (Renamer.Rename fs oldPath newName).2 = fs ∧
    alookup (Renamer.Rename fs oldPath newName).2 oldPath = some src ∧
    alookup (Renamer.Rename fs oldPath newName).2 (joinPath (dirname oldPath) newName) =
      some dst := by
  have h1 : (Renamer.Rename fs oldPath newName).1 =
      .error ("destination file already exists: " ++ joinPath (dirname oldPath) newName) := by
    simp [Renamer.Rename, hdst]
  have h2 : (Renamer.Rename fs oldPath newName).2 = fs := by
    simp [Renamer.Rename, hdst]
  exact ⟨h1, h2, by rw [h2]; exact hsrc, by rw [h2]; exact hdst⟩

/-- Claim C6 witness: the layout of the Go test "destination already
exists": source.pdf and existing.pdf both live in the directory. -/
theorem claim_C6_witness :
    (Renamer.Rename [("/t/source.pdf", [1]), ("/t/existing.pdf", [2])]
        "/t/source.pdf" "existing.pdf").1 =
      .error ("destination file already exists: " ++
        joinPath (dirname "/t/source.pdf") "existing.pdf") ∧
    (Renamer.Rename [("/t/source.pdf", [1]), ("/t/existing.pdf", [2])]
        "/t/source.pdf" "existing.pdf").2 =
      [("/t/source.pdf", [1]), ("/t/existing.pdf", [2])] ∧
    alookup (Renamer.Rename [("/t/source.pdf", [1]), ("/t/existing.pdf", [2])]
        "/t/source.pdf" "existing.pdf").2 "/t/source.pdf" = some [1] ∧
    alookup (Renamer.Rename [("/t/source.pdf", [1]), ("/t/existing.pdf", [2])]
        "/t/source.pdf" "existing.pdf").2
      (joinPath (dirname "/t/source.pdf") "existing.pdf") = some [2] :=
  claim_C6 [("/t/source.pdf", [1]), ("/t/existing.pdf", [2])] "/t/source.pdf" "existing.pdf"
    [1] [2] (by simp [alookup]) (by decide)

/-!  ## Claims about the template engine -/

/-- Claim C2: template update is atomic swap-or-reject. A syntactically
invalid template string yields an error and leaves the active renamer
state — hence every subsequent generated name — unchanged; only a
successfully parsed replacement changes the active template. -/
theorem claim_C2 (r : Renamer) (s : String) :
    (parseTemplate s = none →
       Renamer.UpdateTemplate r s = (.error "failed to parse template", r) ∧
       ∀ path info, Renamer.GenerateName (Renamer.UpdateTemplate r s).2 path info =
         Renamer.GenerateName r path info) ∧
    (∀ t, parseTemplate s = some t →
       Renamer.UpdateTemplate r s = (.ok (), { r with template := t })) := by
  refine ⟨fun h => ⟨?_, fun path info => ?_⟩, fun t h => ?_⟩
  · simp [Renamer.UpdateTemplate, h]
  · simp [Renamer.UpdateTemplate, h]
  · simp [Renamer.UpdateTemplate, h]

/-- Claim C2 witness: the unclosed action of the Go test,
`\x7b\x7b.Invalid`, is rejected and the active template keeps
generating the same names. -/
theorem claim_C2_witness :
    Renamer.UpdateTemplate ⟨[Seg.field "Date", Seg.lit "-", Seg.field "OriginalName"],
        "20060102"⟩ "\x7b\x7b.Invalid" =
      (.error "failed to parse template",
        ⟨[Seg.field "Date", Seg.lit "-", Seg.field "OriginalName"], "20060102"⟩) ∧
    Renamer.GenerateName
        (Renamer.UpdateTemplate ⟨[Seg.field "Date", Seg.lit "-", Seg.field "OriginalName"],
          "20060102"⟩ "\x7b\x7b.Invalid").2 "/path/to/test.pdf" ⟨"20250115", "Cursor"⟩ =
      Renamer.GenerateName ⟨[Seg.field "Date", Seg.lit "-", Seg.field "OriginalName"],
        "20060102"⟩ "/path/to/test.pdf" ⟨"20250115", "Cursor"⟩ := by
  have h := (claim_C2 ⟨[Seg.field "Date", Seg.lit "-", Seg.field "OriginalName"], "20060102"⟩
    "\x7b\x7b.Invalid").1 rfl
  exact ⟨h.1, h.2 "/path/to/test.pdf" ⟨"20250115", "Cursor"⟩⟩

end ReceiptPdfRenamer

namespace ReceiptPdfRenamer

/-- Claim C8: name generation substitutes the date, the sanitized
service, and the original filename minus its extension into the active
template and re-appends the original extension unchanged; with the
standard template, Receipt-001.pdf and result (20250115, Cursor) the
computed name is 20250115-Cursor-Receipt-001.pdf. -/
theorem claim_C8 (r : Renamer) (hr : Renamer.New stdFormatConfig = .ok r) :
    (∀ path info, Renamer.GenerateName r path info =
      .ok (info.Date ++ "-" ++ sanitizeFilename info.Service ++ "-" ++
        trimSuffix (basename path) (extname (basename path)) ++ extname (basename path))) ∧
    Renamer.GenerateName r "/path/to/Receipt-001.pdf" ⟨"20250115", "Cursor"⟩ =
      .ok "20250115-Cursor-Receipt-001.pdf" := by
  have hstd : Renamer.New stdFormatConfig = .ok ⟨stdSegs, "20060102"⟩ := rfl
  rw [hstd] at hr
  have hr' : r = ⟨stdSegs, "20060102"⟩ := by cases hr; rfl
  subst hr'
  exact ⟨fun path info => rfl, by rfl⟩

/-- Claim C8 witness: the standard renamer generates the end-to-end
example name. -/
theorem claim_C8_witness :
    Renamer.GenerateName ⟨stdSegs, "20060102"⟩ "/path/to/Receipt-001.pdf"
        ⟨"20250115", "Cursor"⟩ = .ok "20250115-Cursor-Receipt-001.pdf" ∧
    Renamer.GenerateName ⟨stdSegs, "20060102"⟩ "/path/to/file.PDF" ⟨"20250101", "Test"⟩ =
      .ok ("20250101" ++ "-" ++ sanitizeFilename "Test" ++ "-" ++
        trimSuffix (basename "/path/to/file.PDF") (extname (basename "/path/to/file.PDF")) ++
        extname (basename "/path/to/file.PDF")) :=
  ⟨(claim_C8 ⟨stdSegs, "20060102"⟩ rfl).2,
   (claim_C8 ⟨stdSegs, "20060102"⟩ rfl).1 "/path/to/file.PDF" ⟨"20250101", "Test"⟩⟩

end ReceiptPdfRenamer

namespace ReceiptPdfRenamer

/-- The per-character mapping described by the claim (with "whitespace"
narrowed to the space character): path separators and colons become a
hyphen; quote, wildcard, angle-bracket and pipe characters are removed;
a space becomes a hyphen; everything else is kept. -/
def charMapSpec (c : Char) : List Char :=
  if c = '/' ∨ c = '\\' ∨ c = ':' then ['-']
  else if c = '"' ∨ c = '*' ∨ c = '?' ∨ c = '<' ∨ c = '>' ∨ c = '|' then []
  else if c = ' ' then ['-']
  else [c]

/-- The replacer pass acts characterwise as `charMapSpec` describes. -/
theorem goReplace_eq_charMapSpec (l : List Char) :
    goReplace sanitizePairs l = (l.map charMapSpec).flatten := by
  induction l with
  | nil => rfl
  | cons c rest ih =>
    by_cases h1 : c = '/'
    · subst h1
      rw [show goReplace sanitizePairs ('/' :: rest) = '-' :: goReplace sanitizePairs rest from rfl,
        ih]
      simp [charMapSpec]
    by_cases h2 : c = '\\'
    · subst h2
      rw [show goReplace sanitizePairs ('\\' :: rest) = '-' :: goReplace sanitizePairs rest from rfl,
        ih]
      simp [charMapSpec]
    by_cases h3 : c = ':'
    · subst h3
      rw [show goReplace sanitizePairs (':' :: rest) = '-' :: goReplace sanitizePairs rest from rfl,
        ih]
      simp [charMapSpec]
    by_cases h4 : c = '*'
    · subst h4
      rw [show goReplace sanitizePairs ('*' :: rest) = goReplace sanitizePairs rest from rfl, ih]
      simp [charMapSpec]
    by_cases h5 : c = '?'
    · subst h5
      rw [show goReplace sanitizePairs ('?' :: rest) = goReplace sanitizePairs rest from rfl, ih]
      simp [charMapSpec]
    by_cases h6 : c = '"'
    · subst h6
      rw [show goReplace sanitizePairs ('"' :: rest) = goReplace sanitizePairs rest from rfl, ih]
      simp [charMapSpec]
    by_cases h7 : c = '<'
    · subst h7
      rw [show goReplace sanitizePairs ('<' :: rest) = goReplace sanitizePairs rest from rfl, ih]
      simp [charMapSpec]
    by_cases h8 : c = '>'
    · subst h8
      rw [show goReplace sanitizePairs ('>' :: rest) = goReplace sanitizePairs rest from rfl, ih]
      simp [charMapSpec]
    by_cases h9 : c = '|'
    · subst h9
      rw [show goReplace sanitizePairs ('|' :: rest) = goReplace sanitizePairs rest from rfl, ih]
      simp [charMapSpec]
    by_cases h10 : c = ' '
    · subst h10
      rw [show goReplace sanitizePairs (' ' :: rest) = '-' :: goReplace sanitizePairs rest from rfl,
        ih]
      simp [charMapSpec]
    · have hfind : sanitizePairs.find? (fun p => p.1 = c) = none := by
        simp [sanitizePairs, List.find?, Ne.symm h1, Ne.symm h2, Ne.symm h3, Ne.symm h4,
          Ne.symm h5, Ne.symm h6, Ne.symm h7, Ne.symm h8, Ne.symm h9, Ne.symm h10]
      have hstep : goReplace sanitizePairs (c :: rest) = c :: goReplace sanitizePairs rest := by
        simp only [goReplace, hfind]
      rw [hstep, ih]
      simp [charMapSpec, h1, h2, h3, h4, h5, h6, h7, h8, h9, h10]


/-!  ## Claims C7 and C1 (sanitization and the rename pass) -/

/-- Claim C7 counterexample: the replacer handles only the space
character, not all whitespace; a tab passes through unchanged, so
"Service\tName" is not mapped to "Service-Name". -/
theorem claim_C7_counterexample :
    sanitizeFilename "Service\tName" = "Service\tName" ∧
    sanitizeFilename "Service\tName" ≠ "Service-Name" := by
  constructor
  · rfl
  · decide

/-- Claim C7 (amended): sanitization maps path separators and colons to
a hyphen, removes quote/wildcard/angle-bracket/pipe characters, turns
every run of spaces (the space character only; other whitespace passes
through) into a single hyphen via collapsing, collapses repeated
hyphens, and trims leading/trailing hyphens; in particular
"GitHub Copilot" maps to "GitHub-Copilot", "AWS/EC2" to "AWS-EC2", and
"Service*Name" to "ServiceName". -/
theorem claim_C7_amended :
    (∀ s : String, sanitizeFilename s =
      String.mk (collapseHyphens (trimChar '-' ((s.toList.map charMapSpec).flatten)))) ∧
    (∀ s : String, containsDD (sanitizeFilename s).data = false) ∧
    sanitizeFilename "GitHub Copilot" = "GitHub-Copilot" ∧
    sanitizeFilename "AWS/EC2" = "AWS-EC2" ∧
    sanitizeFilename "Service*Name" = "ServiceName" ∧
    sanitizeFilename "Service   Name" = "Service-Name" ∧
    sanitizeFilename " Service Name " = "Service-Name" := by
  refine ⟨fun s => ?_, fun s => ?_, rfl, rfl, rfl, rfl, rfl⟩
  · rw [sanitizeFilename, goReplace_eq_charMapSpec]
  · rw [sanitizeFilename]
    exact containsDD_collapseHyphens _

/-- Claim C1 counterexample: a selected Ready item whose computed name
equals its original name is recorded as Error by the rename pass (the
existence check sees the source file itself and reports a collision),
not as Skipped. -/
theorem claim_C1_counterexample :
    renameCmd (fun _ => true) [⟨"/d/a.pdf", "a.pdf", "a.pdf", .ready⟩] [("/d/a.pdf", [1])] =
      ([⟨"/d/a.pdf", "a.pdf", "a.pdf", .error⟩], [("/d/a.pdf", [1])], 0, 1) ∧
    ItemStatus.error ≠ ItemStatus.skipped := by
  constructor
  · rfl
  · decide

/-- Claim C1 (amended): for a selected Ready/Cached item whose computed
name equals its original name (and whose file exists at the joined
destination path), the rename pass does not skip: Renamer.Rename's
os.Stat existence check sees the source file at the destination path
and returns a collision error, the item transitions to Error and is
counted as failed, and the filesystem is left unchanged. -/
theorem claim_C1_amended (item : FileItem) (fs : FS) (bs : Bytes) (selected : Nat → Bool)
    (hsel : selected 0 = true)
    (hst : item.status = .ready ∨ item.status = .cached)
    (hnn : item.newName = item.originalName)
    (hex : alookup fs (joinPath (dirname item.originalPath) item.originalName) = some bs) :
    renameCmd selected [item] fs = ([{ item with status := .error }], fs, 0, 1) := by
  simp only [renameCmd, renameItems, hsel, true_and]
  rw [if_pos hst]
  simp only [Renamer.Rename, hnn, hex, Option.isSome_some, if_true]

/-- Claim C1 (amended) witness at the concrete no-op item. -/
theorem claim_C1_amended_witness :
    renameCmd (fun _ => true) [⟨"/d/b.pdf", "b.pdf", "b.pdf", .cached⟩] [("/d/b.pdf", [2])] =
      ([⟨"/d/b.pdf", "b.pdf", "b.pdf", .error⟩], [("/d/b.pdf", [2])], 0, 1) :=
  claim_C1_amended ⟨"/d/b.pdf", "b.pdf", "b.pdf", .cached⟩ [("/d/b.pdf", [2])] [2]
    (fun _ => true) rfl (Or.inr rfl) rfl (by decide)


end ReceiptPdfRenamer

namespace ReceiptPdfRenamer

/-! ## Pool lemmas and the concurrency claims -/

theorem countRunning_set_pending (l : List TaskPhase) (i : Nat)
    (h : l.get? i = some .pending) :
    countRunning (l.set i .running) = countRunning l + 1 := by
  induction l generalizing i with
  | nil => simp at h
  | cons t rest ih =>
    cases i with
    | zero =>
      simp only [List.get?] at h
      cases h
      simp [List.set, countRunning]
      omega
    | succ j =>
      simp only [List.get?] at h
      simp [List.set, countRunning, ih j h]
      omega

theorem countRunning_set_running (l : List TaskPhase) (i : Nat)
    (h : l.get? i = some .running) :
    countRunning l = countRunning (l.set i .done) + 1 := by
  induction l generalizing i with
  | nil => simp at h
  | cons t rest ih =>
    cases i with
    | zero =>
      simp only [List.get?] at h
      cases h
      simp [List.set, countRunning]
      omega
    | succ j =>
      simp only [List.get?] at h
      simp [List.set, countRunning, ih j h]
      omega

theorem countRunning_replicate_pending (k : Nat) :
    countRunning (List.replicate k TaskPhase.pending) = 0 := by
  induction k with
  | zero => rfl
  | succ m ih => simp [List.replicate, countRunning, ih]

theorem countRunning_pos (l : List TaskPhase) (i : Nat) (h : l.get? i = some .running) :
    0 < countRunning l := by
  induction l generalizing i with
  | nil => simp at h
  | cons t rest ih =>
    cases i with
    | zero =>
      simp only [List.get?] at h
      cases h
      simp [countRunning]
    | succ j =>
      simp only [List.get?] at h
      have := ih j h
      simp [countRunning]
      omega

theorem poolStep_cap {s s' : PoolState} (h : PoolStep s s') : s'.cap = s.cap := by
  cases h <;> rfl

theorem poolReach_cap {s s' : PoolState} (h : poolReach s s') : s'.cap = s.cap := by
  induction h with
  | refl => rfl
  | tail _ hstep ih => rw [poolStep_cap hstep, ih]

theorem poolStep_inFlight {s s' : PoolState} (h : PoolStep s s')
    (hb : inFlight s ≤ s.cap) : inFlight s' ≤ s'.cap := by
  cases h with
  | acquire i hi hlt =>
    simp only [inFlight] at *
    rw [countRunning_set_pending _ i hi]
    omega
  | release i hi =>
    simp only [inFlight] at *
    have := countRunning_set_running _ i hi
    omega

theorem poolReach_inFlight {s s' : PoolState} (h : poolReach s s')
    (hb : inFlight s ≤ s.cap) : inFlight s' ≤ s'.cap := by
  induction h with
  | refl => exact hb
  | tail _ hstep ih => exact poolStep_inFlight hstep ih

theorem noPoolStep_of_cap0 (s : PoolState) (s' : PoolState) (hc : s.cap = 0)
    (hr : countRunning s.tasks = 0) : ¬ PoolStep s s' := by
  intro h
  cases h with
  | acquire i hi hlt => rw [hc] at hlt; exact Nat.not_lt_zero _ hlt
  | release i hi => have := countRunning_pos _ i hi; omega

/-- Claim C9: the analysis pipeline's semaphore bounds concurrency.
From the initial pool with capacity N, every reachable state has at
most N tasks inside the guarded cache-lookup-plus-analyze region, for
any number of dispatched tasks. -/
theorem claim_C9 (n k : Nat) (s : PoolState) (h : poolReach (initPool n k) s) :
    inFlight s ≤ n := by
  have h0 : inFlight (initPool n k) ≤ (initPool n k).cap := by
    simp [inFlight, initPool, countRunning_replicate_pending]
  calc inFlight s ≤ s.cap := poolReach_inFlight h h0
    _ = n := by rw [poolReach_cap h]; rfl

/-- Claim C9 witness: the initial pool with capacity 3 and 5 tasks is
reachable from itself and respects the bound. -/
theorem claim_C9_witness : inFlight (initPool 3 5) ≤ 3 :=
  claim_C9 3 5 (initPool 3 5) Relation.ReflTransGen.refl

/-- Claim C5 counterexample: a configured maxConcurrency of 0 is not
treated as 1: the semaphore channel is created with capacity 0, and
from the initial pool with one task no state with the task completed is
ever reachable (the pipeline does not complete). -/
theorem claim_C5_counterexample :
    (initPool 0 1).cap = 0 ∧ (initPool 0 1).cap ≠ max 1 0 ∧
    ¬ poolReach (initPool 0 1) ⟨0, [TaskPhase.done]⟩ := by
  refine ⟨rfl, by decide, fun h => ?_⟩
  rcases Relation.ReflTransGen.cases_head h with heq | ⟨c, hstep, _⟩
  · exact absurd heq (by decide)
  · exact noPoolStep_of_cap0 _ c rfl (countRunning_replicate_pending 1) hstep

/-- Claim C5 (amended): maxConcurrency defaults to 3; the --workers
flag overrides the configured value only when positive and is ignored
otherwise; the analysis pipeline creates its semaphore with the
configured value itself — a value ≤ 0 is not treated as 1, and with
capacity 0 no analysis task is ever admitted. -/
theorem claim_C5_amended :
    DefaultConfig.ai.maxWorkers = 3 ∧
    (∀ c w : Int, w > 0 → applyWorkersFlag c w = w) ∧
    (∀ c w : Int, w ≤ 0 → applyWorkersFlag c w = c) ∧
    (∀ mw n : Nat, (initPool mw n).cap = mw) ∧
    (∀ k : Nat, ∀ s', ¬ PoolStep (initPool 0 k) s') := by
  refine ⟨rfl, fun c w hw => if_pos hw, fun c w hw => ?_, fun mw n => rfl,
    fun k s' => noPoolStep_of_cap0 _ _ rfl (countRunning_replicate_pending k)⟩
  unfold applyWorkersFlag
  rw [if_neg (by omega)]

/-- Claim C5 (amended) witness at concrete flag and pool values. -/
theorem claim_C5_amended_witness :
    applyWorkersFlag 3 5 = 5 ∧ applyWorkersFlag 3 0 = 3 ∧
    ¬ PoolStep (initPool 0 1) ⟨0, [TaskPhase.running]⟩ :=
  ⟨claim_C5_amended.2.1 3 5 (by norm_num), claim_C5_amended.2.2.1 3 0 (by norm_num),
   claim_C5_amended.2.2.2.2 1 ⟨0, [TaskPhase.running]⟩⟩

end ReceiptPdfRenamer
